import Mathlib

/-!
Verification of the london-crime-dashboard pipeline (`main.py`).

The file shallowly embeds the parts of `main.py` that the checked
properties are about:

* the per-item date extraction and the per-category selection loop of
  `find_latest_files` (lines 380-443);
* the retry loop of `download_file`, restricted to the state it keeps on
  the download directory (`.crdownload` marker files, lines 497-670);
* the sqlite connection / `to_sql(if_exists='replace')` write used by
  `create_combined_borough_table` (lines 1054-1067), modelled with the
  transaction semantics of the python `sqlite3` module in its default
  (legacy) isolation mode;
* the normalization and aggregation steps of
  `create_combined_borough_table` (lines 916-1050).

Python string operations (`strip`, `title`, `lower`, `re.sub(r'\s+', ' ')`,
substring tests) are implemented character-by-character so that every
definition is executable and concrete runs can be settled by `decide`.
Dates are encoded as natural numbers whose order agrees with the order of
the encoded timestamps; `0` encodes `datetime.min`.
-/

/-! ## Python string primitives -/

/-- The characters python's `str.strip()` and `\s` treat as whitespace
(ASCII range). -/
def isPyWs (c : Char) : Bool :=
  c = ' ' || c = '\t' || c = '\n' || c = '\r' || c = '\x0b' || c = '\x0c'

/-- `str.strip()`: drop whitespace from both ends. -/
def pyStrip (s : String) : String :=
  ⟨((s.data.dropWhile isPyWs).reverse.dropWhile isPyWs).reverse⟩

/-- Worker for `pyTitle`: the boolean records whether the previous
character was alphabetic (python: a cased character). -/
def pyTitleGo : Bool → List Char → List Char
  | _, [] => []
  | prevAlpha, c :: cs =>
    if c.isAlpha then
      (if prevAlpha then c.toLower else c.toUpper) :: pyTitleGo true cs
    else
      c :: pyTitleGo false cs

/-- `str.title()`: uppercase every letter that follows a non-letter,
lowercase the others. -/
def pyTitle (s : String) : String :=
  ⟨pyTitleGo false s.data⟩

/-- `str.lower()` (ASCII). -/
def pyLower (s : String) : String :=
  ⟨s.data.map Char.toLower⟩

/-- Worker for `collapseWs`: the boolean records whether the previous
character was whitespace (start of a run that was already replaced). -/
def collapseWsGo : Bool → List Char → List Char
  | _, [] => []
  | prevWs, c :: cs =>
    if isPyWs c then
      if prevWs then collapseWsGo true cs else ' ' :: collapseWsGo true cs
    else
      c :: collapseWsGo false cs

/-- `re.sub(r'\s+', ' ', s)`: replace every maximal whitespace run by a
single space. -/
def collapseWs (s : String) : String :=
  ⟨collapseWsGo false s.data⟩

/-- Does `pat` occur at the head of `l`? -/
def pfxAt : List Char → List Char → Bool
  | [], _ => true
  | _ :: _, [] => false
  | a :: as, b :: bs => a == b && pfxAt as bs

/-- Does `l` contain `pat` as a contiguous sublist? -/
def hasSub (pat : List Char) : List Char → Bool
  | [] => pat.isEmpty
  | c :: tl => pfxAt pat (c :: tl) || hasSub pat tl

/-- Python's `pat in s` substring test. -/
def containsSub (s pat : String) : Bool :=
  hasSub pat.data s.data

/-- Python's `f.endswith(pat)` suffix test. -/
def sfxAt (pat : String) (f : String) : Bool :=
  pfxAt pat.data.reverse f.data.reverse

/-! ## Resource Locator (`find_latest_files`, main.py lines 234-473)

An `Item` is one resource item of the rendered page after the code has
resolved its absolute URL, its filename and its parsed date
(lines 311-412).  Dates are naturals; `0` encodes `datetime.min`. -/

structure Item where
  fileUrl : String
  filename : String
  date : Nat
deriving DecidableEq

/-- Lines 380-410 of `find_latest_files`: the date assigned to one item.
`tagDate` is the date parsed from a dedicated `last-updated-text` /
`date` element (`none` when the element is absent or its text does not
parse), `textDate` the date parsed from a date-like substring of the
item's full text (`none` when no match or unparsable), `now` the value
of `datetime.now()`.  `0` encodes `datetime.min`. -/
def parse_item_date (tagDate textDate : Option Nat) (now : Nat) : Nat :=
  -- parsed_date = datetime.min (line 381), overwritten by the element text
  let d1 : Nat := match tagDate with | some v => v | none => 0
  -- fallback: regex over the item text, only when still datetime.min (line 394)
  let d2 : Nat := if d1 = 0 then (match textDate with | some v => v | none => 0) else d1
  -- line 408: if still datetime.min, use datetime.now()
  if d2 = 0 then now else d2

/-- `"borough" in key` (line 423). -/
def keyHasBorough (key : String) : Bool :=
  containsSub key "borough"

/-- `is_historical = "historical" in filename.lower()` (line 421). -/
def isHistoricalName (fn : String) : Bool :=
  containsSub (pyLower fn) "historical"

/-- Python truthiness of `latest_files[key] and "historical" in
latest_files[key][2].lower()` (line 433). -/
def latestIsHistorical : Option Item → Bool
  | none => false
  | some s => isHistoricalName s.filename

/-- One iteration of the selection loop of `find_latest_files`
(lines 419-443) for a fixed category `key`, acting on the pair
`(latest_files[key], max_dates[key])`. -/
def stepSelect (key : String) (st : Option Item × Nat) (it : Item) : Option Item × Nat :=
  let latest := st.1
  let maxD := st.2
  if keyHasBorough key && isHistoricalName it.filename then
    -- lines 423-429: historical borough branch
    match latest with
    | none => (some it, it.date)
    | some s => if it.date > s.date then (some it, it.date) else (some s, maxD)
  else if it.date > maxD && !(keyHasBorough key && latestIsHistorical latest) then
    -- lines 433-436
    (some it, it.date)
  else
    match latest with
    | none => (some it, it.date)  -- lines 437-440
    | some s => (some s, maxD)    -- lines 441-442: keep the existing choice

/-- The selection `find_latest_files` performs for one category over the
page's items that match that category's pattern, in page order.  The
state starts as `latest_files[key] = None`, `max_dates[key] =
datetime.min` (lines 245-246). -/
def selectForKey (key : String) (items : List Item) : Option Item × Nat :=
  items.foldl (stepSelect key) (none, 0)

/-- Modelled from the spec: "among non-historical candidates, the item
with the latest parsed date wins; ties keep the first-seen item" — the
first-seen item of maximal date. -/
def specFirstLatest : List Item → Option Item
  | [] => none
  | it :: rest => some (rest.foldl (fun acc x => if acc.date < x.date then x else acc) it)

/-! ## Download Manager (`download_file`, main.py lines 476-670)

Only the state the claims are about is kept: the set of files in the
download directory, represented as the list of their names, and the
success flag.  One attempt of the retry loop is summarized by its
outcome together with the files the browser-driven transfer deposited in
the directory during the attempt. -/

/-- How one attempt of the loop of `download_file` ends:
`completed` — a qualifying completed file is detected and verified and
the function returns `True` (lines 566-634); `timedOut` — the poll loop
exhausts its bound with `download_complete` false (lines 586-605);
`raisedExc` — an exception is raised during the attempt (lines 646-651). -/
inductive DLOutcome
  | completed
  | timedOut
  | raisedExc
deriving DecidableEq

/-- Is `f` a Chrome in-progress marker (`f.endswith(".crdownload")`,
lines 537 and 592)? -/
def isCrdownload (f : String) : Bool :=
  sfxAt ".crdownload" f

/-- The retry loop of `download_file` (lines 497-670).  `dir` is the
download directory's contents at the start of the attempt; each attempt
is `(outcome, deposited)` where `deposited` are the files the transfer
left in the directory during the attempt.  The attempts list has one
entry per loop iteration (`range(retries)`), so an empty tail means
`attempt == retries - 1`.  Returns the final boolean result and the
directory contents observed at the start of each attempt that ran. -/
def dlGo (dir : List String) : List (DLOutcome × List String) → Bool × List (List String)
  | [] => (false, [])
  | (DLOutcome.completed, _) :: _ => (true, [dir])
  | (DLOutcome.timedOut, _) :: [] =>
    (false, [dir])                     -- lines 603-605: return False
  | (DLOutcome.timedOut, dep) :: r2 :: rest =>
    -- lines 589-597: `attempt < retries - 1`, so remove every
    -- *.crdownload file from the directory, then retry
    let cleaned := ((dir ++ dep).filter (fun f => !isCrdownload f))
    let r := dlGo cleaned (r2 :: rest)
    (r.1, dir :: r.2)
  | (DLOutcome.raisedExc, _) :: [] =>
    (false, [dir])                     -- lines 666-668: return False
  | (DLOutcome.raisedExc, dep) :: r2 :: rest =>
    -- lines 662-665: wait and retry; no cleanup on this path
    let r := dlGo (dir ++ dep) (r2 :: rest)
    (r.1, dir :: r.2)

/-- `download_file` on an initially given directory state. -/
def download_file_model (attempts : List (DLOutcome × List String))
    (dir0 : List String) : Bool × List (List String) :=
  dlGo dir0 attempts

/-! ## The structured store (sqlite3 + pandas `to_sql`)

`create_combined_borough_table` writes the fact table with
`df_final.to_sql(target_table, conn, if_exists='replace', ...)`
(line 1060) on a `sqlite3.connect` connection in the module's default
(legacy) isolation mode.  In that mode the python `sqlite3` module opens
an implicit transaction before INSERT/UPDATE/DELETE/REPLACE statements
only; DDL (DROP/CREATE) executed while no transaction is open runs in
sqlite's autocommit mode and is durable at once.  pandas' sqlite path
for `if_exists='replace'` executes DROP TABLE, then CREATE TABLE, then
the chunked INSERTs inside one transaction that it commits at the end
and rolls back when an insert raises. -/

/-- A fact record of the output table (columns of line 80 of the spec:
`borough, major_category, minor_category, date, count`). -/
structure FactRow where
  borough : String
  major_category : String
  minor_category : String
  date : Nat
  count : Int
deriving DecidableEq

/-- The committed content of the sqlite database: named tables. -/
structure DbState where
  tables : List (String × List FactRow)
deriving DecidableEq

/-- Replace (or create) the binding of table `n`. -/
def setTable (d : DbState) (n : String) (rows : List FactRow) : DbState :=
  ⟨(n, rows) :: d.tables.filter (fun p => !(p.1 == n))⟩

/-- `DROP TABLE n`. -/
def dropTable (d : DbState) (n : String) : DbState :=
  ⟨d.tables.filter (fun p => !(p.1 == n))⟩

/-- Look a table up. -/
def getTable (d : DbState) (n : String) : Option (List FactRow) :=
  d.tables.lookup n

/-- Append rows to table `n` (the INSERTs of one chunk). -/
def appendRows (d : DbState) (n : String) (rows : List FactRow) : DbState :=
  setTable d n ((getTable d n).getD [] ++ rows)

/-- A python `sqlite3` connection in legacy isolation mode: the
committed database plus the draft of the implicitly opened transaction,
when one is open. -/
structure SqliteConn where
  committed : DbState
  txn : Option DbState
deriving DecidableEq

/-- Execute a DDL statement (DROP/CREATE): it joins an open transaction,
and otherwise runs — and commits — in sqlite autocommit mode. -/
def execDDL (c : SqliteConn) (f : DbState → DbState) : SqliteConn :=
  match c.txn with
  | some d => ⟨c.committed, some (f d)⟩
  | none => ⟨f c.committed, none⟩

/-- Execute a DML statement (INSERT): an implicit `BEGIN` opens a
transaction first when none is open. -/
def execDML (c : SqliteConn) (f : DbState → DbState) : SqliteConn :=
  match c.txn with
  | some d => ⟨c.committed, some (f d)⟩
  | none => ⟨c.committed, some (f c.committed)⟩

/-- `conn.commit()`. -/
def commitConn (c : SqliteConn) : SqliteConn :=
  match c.txn with
  | some d => ⟨d, none⟩
  | none => c

/-- `conn.rollback()`. -/
def rollbackConn (c : SqliteConn) : SqliteConn :=
  ⟨c.committed, none⟩

/-- The chunked INSERT phase of `to_sql`.  `failAt = some k` means the
INSERT of chunk `k` (0-based) raises `sqlite3.Error`; `none` means every
chunk succeeds. -/
def insertChunks (c : SqliteConn) (name : String) :
    List (List FactRow) → Option Nat → SqliteConn × Bool
  | [], _ => (c, true)
  | chunk :: rest, failAt =>
    match failAt with
    | some 0 => (c, false)
    | some (k + 1) => insertChunks (execDML c (fun d => appendRows d name chunk)) name rest (some k)
    | none => insertChunks (execDML c (fun d => appendRows d name chunk)) name rest none

/-- `DataFrame.to_sql(name, conn, if_exists='replace', chunksize=...)`
on the sqlite fallback path: DROP TABLE (plain execute — autocommitted
when no transaction is open), CREATE TABLE (in a `run_transaction`,
committed at once), then every chunk's INSERT in one `run_transaction`
that commits on success and rolls back when an INSERT raises. -/
def to_sql_replace (c0 : SqliteConn) (name : String)
    (chunks : List (List FactRow)) (failAt : Option Nat) : SqliteConn × Bool :=
  let c1 := execDDL c0 (fun d => dropTable d name)
  let c2 := commitConn (execDDL c1 (fun d => setTable d name []))
  let r := insertChunks c2 name chunks failAt
  if r.2 then (commitConn r.1, true) else (rollbackConn r.1, false)

/-- Lines 1054-1067 of `create_combined_borough_table`: write the final
table via `to_sql(..., if_exists='replace')`; on success `conn.commit()`
and return `True`, on `sqlite3.Error` `conn.rollback()` and return
`False`. -/
def write_final_table (c : SqliteConn) (chunks : List (List FactRow))
    (failAt : Option Nat) : SqliteConn × Bool :=
  let r := to_sql_replace c "crime_borough_combined" chunks failAt
  if r.2 then (commitConn r.1, true) else (rollbackConn r.1, false)

/-! ## Normalization & Aggregation Engine
(`create_combined_borough_table`, main.py lines 759-1084)

The claims are about steps after the two sources were melted and
concatenated into `df_combined` (line 906/909): one row per
`(borough, major_category, minor_category, date)` with an integer
`count`.  A `CombinedRow` is one such row; missing text cells are
`none`. -/

/-- A row of `df_combined` before text standardization (line 916).
Text cells may be missing, represented as `none`: the text columns
reach this point through `pd.read_sql_query` of the raw sqlite tables
(lines 787/845), which returns an SQL NULL as the Python object `None`
in an object-dtype column. -/
structure CombinedRow where
  borough : Option String
  major_category : Option String
  minor_category : Option String
  date : Nat
  count : Int
deriving DecidableEq

/-- `Series.astype(str)` on one cell of a text column read back from
sqlite: an SQL NULL is the Python object `None`, and `astype(str)`
renders it as the string `"None"`.  (Only a float `NaN` cell would
render as `"nan"`; the object-dtype text columns of this pipeline hold
`None`.) -/
def pyStrOfCell : Option String → String
  | none => "None"
  | some s => s

/-- Lines 918-924: `astype(str).str.strip().str.title()`, then
`str.replace(r'\s+', ' ', regex=True)`, then `replace('Nan',
'Unknown')`. -/
def normalizeField (s : String) : String :=
  let t := collapseWs (pyTitle (pyStrip s))
  if t = "Nan" then "Unknown" else t

/-- The static `minor_crime_mapping` dictionary (lines 931-1005). -/
def minor_crime_mapping : List (String × String) := [
  ("Theft From Person", "Theft From Person"),
  ("Theft From Motor Vehicle", "Theft From Motor Vehicle"),
  ("Theft Or Taking Of Motor Vehicle", "Theft Or Taking Of Motor Vehicle"),
  ("Other Theft", "Other Theft"),
  ("Handling Stolen Goods", "Handling Stolen Goods"),
  ("Shoplifting", "Shoplifting"),
  ("Bicycle Theft", "Bicycle Theft"),
  ("Making Off Without Payment", "Making Off Without Payment"),
  ("Burglary In Dwelling", "Burglary - Residential"),
  ("Burglary In A Dwelling", "Burglary - Residential"),
  ("Burglary - Residential", "Burglary - Residential"),
  ("Burglary Other Than Dwelling", "Burglary - Business And Community"),
  ("Burglary Non-Dwelling", "Burglary - Business And Community"),
  ("Burglary Business And Community", "Burglary - Business And Community"),
  ("Criminal Damage To Dwelling", "Criminal Damage To Dwelling"),
  ("Criminal Damage To Motor Vehicle", "Criminal Damage To Motor Vehicle"),
  ("Criminal Damage To Other Building", "Criminal Damage To Other Building"),
  ("Other Criminal Damage", "Other Criminal Damage"),
  ("Arson", "Arson"),
  ("Common Assault", "Common Assault"),
  ("Assault With Injury", "Assault With Injury"),
  ("Wounding/Gbh", "Wounding/GBH"),
  ("Harassment", "Harassment"),
  ("Offensive Weapon", "Possession Of Weapons"),
  ("Possession Of Weapon", "Possession Of Weapons"),
  ("Possession Of Weapons", "Possession Of Weapons"),
  ("Other Violence", "Other Violence"),
  ("Murder", "Homicide"),
  ("Homicide", "Homicide"),
  ("Violence With Injury", "Violence With Injury"),
  ("Violence Without Injury", "Violence Without Injury"),
  ("Racially Or Religiously Aggravated Offences", "Racially/Religiously Aggravated Offences"),
  ("Rape", "Rape"),
  ("Other Sexual Offences", "Other Sexual Offences"),
  ("Personal Robbery", "Robbery - Personal Property"),
  ("Robbery Of Personal Property", "Robbery - Personal Property"),
  ("Business Robbery", "Robbery - Business Property"),
  ("Robbery Of Business Property", "Robbery - Business Property"),
  ("Drug Trafficking", "Drug Trafficking"),
  ("Possession Of Drugs", "Drug Possession"),
  ("Other Drug Offences", "Other Drug Offences"),
  ("Public Fear Alarm Or Distress", "Public Fear, Alarm Or Distress"),
  ("Other Public Order Offences", "Other Public Order Offences"),
  ("Racially/Religiously Aggravated Public Order", "Racially/Religiously Aggravated Public Order"),
  ("Racially Or Religiously Aggravated Public Fear, Al", "Racially/Religiously Aggravated Public Order"),
  ("Other Notifiable Offences", "Other Notifiable Offences"),
  ("Going Equipped For Stealing", "Going Equipped"),
  ("Going Equipped", "Going Equipped"),
  ("Other Offences Against The State, Or Public Order", "Other State/Public Order Offences"),
  ("Absconding From Lawful Custody", "Absconding / Bail Offences"),
  ("Bail Offences", "Absconding / Bail Offences"),
  ("Fraud Or Forgery", "Fraud & Forgery"),
  ("Forgery Or Use Of Drug Prescription", "Fraud & Forgery"),
  ("Unknown", "Unknown")]

/-- Line 1008: `df['minor_category'].map(minor_crime_mapping)
.fillna(df['minor_category'])` on one cell. -/
def applyMinorMapping (s : String) : String :=
  (minor_crime_mapping.lookup s).getD s

/-- Lines 916-1021 on one row: standardize the three text fields and
canonicalize the minor category. -/
def normalizeRow (r : CombinedRow) : FactRow :=
  { borough := normalizeField (pyStrOfCell r.borough)
    major_category := normalizeField (pyStrOfCell r.major_category)
    minor_category := applyMinorMapping (normalizeField (pyStrOfCell r.minor_category))
    date := r.date
    count := r.count }

/-- The grouping key of the final aggregation (line 1026):
`['borough', 'major_category', 'minor_category', 'date']`. -/
def keyOf (r : FactRow) : String × String × String × Nat :=
  (r.borough, r.major_category, r.minor_category, r.date)

/-- Rebuild a row from a grouping key and an aggregated count. -/
def mkRow (k : String × String × String × Nat) (c : Int) : FactRow :=
  ⟨k.1, k.2.1, k.2.2.1, k.2.2.2, c⟩

/-- The summed count of key `k` over `rows`. -/
def sumFor (rows : List FactRow) (k : String × String × String × Nat) : Int :=
  ((rows.filter (fun r => decide (keyOf r = k))).map FactRow.count).sum

/-- Worker for `dedupFirst`, structurally recursive on a fuel bound so
that it evaluates inside the kernel. -/
def dedupFirstGo {α : Type} [DecidableEq α] : Nat → List α → List α
  | 0, _ => []
  | _, [] => []
  | n + 1, x :: xs => x :: dedupFirstGo n (xs.filter (fun y => decide (y ≠ x)))

/-- The distinct elements of a list, keeping first occurrences in
order. -/
def dedupFirst {α : Type} [DecidableEq α] (l : List α) : List α :=
  dedupFirstGo l.length l

/-- Line 1028: `df_combined.groupby(final_cols, as_index=False)['count']
.sum()` — one output row per distinct key, whose count is the sum of the
input counts of that key. -/
def groupSum (rows : List FactRow) : List FactRow :=
  (dedupFirst (rows.map keyOf)).map (fun k => mkRow k (sumFor rows k))

/-- Line 1037: the exclusion list `boroughs_to_exclude`. -/
def boroughs_to_exclude : List String :=
  ["London Heathrow And London City Airports", "Aviation Security (So18)",
   "City Of London", "Unknown"]

/-- The sort order of line 1050:
`sort_values(by=['borough', 'date', 'major_category', 'minor_category'])`. -/
def rowLe (a b : FactRow) : Bool :=
  if a.borough ≠ b.borough then decide (a.borough < b.borough)
  else if a.date ≠ b.date then decide (a.date < b.date)
  else if a.major_category ≠ b.major_category then decide (a.major_category < b.major_category)
  else decide (a.minor_category ≤ b.minor_category)

/-- Line 1050: sort the final table. -/
def sortRows (rows : List FactRow) : List FactRow :=
  rows.insertionSort (fun a b => rowLe a b = true)

/-- The "final aggregation" step of the spec (§4.7 step 6, first half):
group by the key, sum counts, drop zero-count rows
(lines 1026-1033). -/
def finalAgg (rows : List FactRow) : List FactRow :=
  (groupSum rows).filter (fun r => decide (0 < r.count))

/-- Lines 916-1050 of `create_combined_borough_table`: from
`df_combined` to the rows written as `df_final` — standardize text
fields, canonicalize minor categories, group-and-sum, drop zero counts,
drop excluded boroughs, sort. -/
def enginePipeline (rows : List CombinedRow) : List FactRow :=
  let combined := rows.map normalizeRow
  let pos := finalAgg combined
  let kept := pos.filter (fun r => decide (r.borough ∉ boroughs_to_exclude))
  sortRows kept

/-! ## Lemmas about `dedupFirst` and `groupSum` -/

theorem dedupFirstGo_congr {α : Type} [DecidableEq α] :
    ∀ (n m : Nat) (l : List α), l.length ≤ n → l.length ≤ m →
      dedupFirstGo n l = dedupFirstGo m l := by
  intro n
  induction n with
  | zero =>
    intro m l h1 _
    have : l = [] := List.length_eq_zero.mp (Nat.le_zero.mp h1)
    subst this
    cases m <;> rfl
  | succ n ih =>
    intro m l h1 h2
    cases l with
    | nil => cases m <;> rfl
    | cons x xs =>
      cases m with
      | zero => exact absurd h2 (by simp)
      | succ m =>
        simp only [dedupFirstGo]
        have hf : (xs.filter (fun y => decide (y ≠ x))).length ≤ xs.length :=
          List.length_filter_le _ _
        rw [ih m (xs.filter (fun y => decide (y ≠ x)))
          (le_trans hf (Nat.le_of_succ_le_succ h1))
          (le_trans hf (Nat.le_of_succ_le_succ h2))]

theorem dedupFirst_cons {α : Type} [DecidableEq α] (x : α) (xs : List α) :
    dedupFirst (x :: xs) = x :: dedupFirst (xs.filter (fun y => decide (y ≠ x))) := by
  unfold dedupFirst
  simp only [List.length_cons, dedupFirstGo]
  rw [dedupFirstGo_congr xs.length (xs.filter (fun y => decide (y ≠ x))).length
    (xs.filter (fun y => decide (y ≠ x))) (List.length_filter_le _ _) (Nat.le_refl _)]

theorem mem_dedupFirstGo {α : Type} [DecidableEq α] :
    ∀ (n : Nat) (l : List α), l.length ≤ n → ∀ y, (y ∈ dedupFirstGo n l ↔ y ∈ l) := by
  intro n
  induction n with
  | zero =>
    intro l h1 y
    have : l = [] := List.length_eq_zero.mp (Nat.le_zero.mp h1)
    subst this
    rfl
  | succ n ih =>
    intro l h1 y
    cases l with
    | nil => rfl
    | cons x xs =>
      simp only [dedupFirstGo, List.mem_cons]
      rw [ih (xs.filter (fun y => decide (y ≠ x)))
        (le_trans (List.length_filter_le _ _) (Nat.le_of_succ_le_succ h1)) y]
      by_cases hyx : y = x
      · simp [hyx]
      · simp [hyx, List.mem_filter]

theorem mem_dedupFirst {α : Type} [DecidableEq α] {l : List α} {y : α} :
    y ∈ dedupFirst l ↔ y ∈ l :=
  mem_dedupFirstGo l.length l (Nat.le_refl _) y

theorem nodup_dedupFirstGo {α : Type} [DecidableEq α] :
    ∀ (n : Nat) (l : List α), l.length ≤ n → (dedupFirstGo n l).Nodup := by
  intro n
  induction n with
  | zero =>
    intro l h1
    have : l = [] := List.length_eq_zero.mp (Nat.le_zero.mp h1)
    subst this
    exact List.nodup_nil
  | succ n ih =>
    intro l h1
    cases l with
    | nil => exact List.nodup_nil
    | cons x xs =>
      simp only [dedupFirstGo]
      have hlen : (xs.filter (fun y => decide (y ≠ x))).length ≤ n :=
        le_trans (List.length_filter_le _ _) (Nat.le_of_succ_le_succ h1)
      refine List.nodup_cons.mpr ⟨?_, ih _ hlen⟩
      intro hx
      have := (mem_dedupFirstGo n _ hlen x).mp hx
      have := (List.mem_filter.mp this).2
      simp at this

theorem nodup_dedupFirst {α : Type} [DecidableEq α] (l : List α) :
    (dedupFirst l).Nodup :=
  nodup_dedupFirstGo l.length l (Nat.le_refl _)

theorem keyOf_mkRow (k : String × String × String × Nat) (c : Int) :
    keyOf (mkRow k c) = k := rfl

theorem mkRow_keyOf (r : FactRow) : mkRow (keyOf r) r.count = r := rfl

theorem sumFor_cons (r : FactRow) (rows : List FactRow) (k : String × String × String × Nat) :
    sumFor (r :: rows) k = (if keyOf r = k then r.count else 0) + sumFor rows k := by
  unfold sumFor
  by_cases h : keyOf r = k <;> simp [List.filter_cons, h]

theorem sumFor_eq_zero {rows : List FactRow} {k : String × String × String × Nat}
    (h : k ∉ rows.map keyOf) : sumFor rows k = 0 := by
  unfold sumFor
  have hnil : rows.filter (fun r => decide (keyOf r = k)) = [] := by
    refine List.filter_eq_nil_iff.mpr ?_
    intro a ha hk
    exact h (List.mem_map.mpr ⟨a, ha, of_decide_eq_true hk⟩)
  rw [hnil]
  rfl

/-- Every row of `groupSum rows` carries a key occurring in `rows` and
the summed count of that key. -/
theorem mem_groupSum {rows : List FactRow} {r : FactRow} (h : r ∈ groupSum rows) :
    keyOf r ∈ rows.map keyOf ∧ r.count = sumFor rows (keyOf r) := by
  unfold groupSum at h
  obtain ⟨k, hk, hr⟩ := List.mem_map.mp h
  subst hr
  rw [keyOf_mkRow]
  exact ⟨mem_dedupFirst.mp hk, rfl⟩

theorem map_keyOf_groupSum (rows : List FactRow) :
    (groupSum rows).map keyOf = dedupFirst (rows.map keyOf) := by
  unfold groupSum
  rw [List.map_map]
  have : (keyOf ∘ fun k => mkRow k (sumFor rows k)) = id := by
    funext k
    exact keyOf_mkRow k _
  rw [this, List.map_id]

theorem nodup_map_keyOf_groupSum (rows : List FactRow) :
    ((groupSum rows).map keyOf).Nodup := by
  rw [map_keyOf_groupSum]
  exact nodup_dedupFirst _

/-- On a list whose keys are pairwise distinct, group-and-sum is the
identity. -/
theorem groupSum_eq_self : ∀ {l : List FactRow}, (l.map keyOf).Nodup → groupSum l = l := by
  intro l
  induction l with
  | nil => intro _; rfl
  | cons r rest ih =>
    intro h
    rw [List.map_cons, List.nodup_cons] at h
    obtain ⟨hnot, hrest⟩ := h
    unfold groupSum
    rw [List.map_cons, dedupFirst_cons]
    have hfilt : (rest.map keyOf).filter (fun y => decide (y ≠ keyOf r)) = rest.map keyOf := by
      refine List.filter_eq_self.mpr ?_
      intro a ha
      simp only [decide_eq_true_iff]
      intro haeq
      exact hnot (haeq ▸ ha)
    rw [hfilt, List.map_cons]
    have hhead : mkRow (keyOf r) (sumFor (r :: rest) (keyOf r)) = r := by
      rw [sumFor_cons, if_pos rfl, sumFor_eq_zero hnot, add_zero, mkRow_keyOf]
    rw [hhead]
    have htail : (dedupFirst (rest.map keyOf)).map (fun k => mkRow k (sumFor (r :: rest) k)) =
        (dedupFirst (rest.map keyOf)).map (fun k => mkRow k (sumFor rest k)) := by
      refine List.map_congr_left ?_
      intro k hk
      have hkmem : k ∈ rest.map keyOf := mem_dedupFirst.mp hk
      have hkne : keyOf r ≠ k := fun he => hnot (he ▸ hkmem)
      rw [sumFor_cons, if_neg hkne, zero_add]
    rw [htail]
    show r :: groupSum rest = r :: rest
    rw [ih hrest]

/-! ## Lemmas about the engine pipeline -/

/-- Every row of the final table comes from the positive-count
aggregation and survives the borough exclusion filter. -/
theorem mem_enginePipeline {rows : List CombinedRow} {r : FactRow}
    (h : r ∈ enginePipeline rows) :
    r ∈ finalAgg (rows.map normalizeRow) ∧ r.borough ∉ boroughs_to_exclude := by
  unfold enginePipeline sortRows at h
  rw [List.mem_insertionSort] at h
  have h2 := List.mem_filter.mp h
  exact ⟨h2.1, of_decide_eq_true h2.2⟩

/-- Every row of `finalAgg` has a positive count equal to the summed
contributions of its key. -/
theorem mem_finalAgg {rows : List FactRow} {r : FactRow} (h : r ∈ finalAgg rows) :
    0 < r.count ∧ r.count = sumFor rows (keyOf r) := by
  unfold finalAgg at h
  have h2 := List.mem_filter.mp h
  exact ⟨of_decide_eq_true h2.2, (mem_groupSum h2.1).2⟩

/-! ## Lemmas about the selection loop -/

/-- The fold of the spec's rule "latest parsed date wins, ties keep the
first-seen item", run from an already selected item `b`. -/
def specGo (b : Item) (l : List Item) : Item :=
  l.foldl (fun acc x => if acc.date < x.date then x else acc) b

theorem specFirstLatest_cons (it : Item) (rest : List Item) :
    specFirstLatest (it :: rest) = some (specGo it rest) := rfl

/-- One non-historical step of the selection loop from a non-historical
selection behaves as the plain latest-date rule. -/
theorem stepSelect_nonhist (key : String) (b x : Item)
    (hb : isHistoricalName b.filename = false)
    (hx : isHistoricalName x.filename = false) :
    stepSelect key (some b, b.date) x =
      if b.date < x.date then (some x, x.date) else (some b, b.date) := by
  unfold stepSelect latestIsHistorical
  simp only [hx, hb, Bool.and_false, Bool.not_false, Bool.and_true, Bool.false_eq_true,
    if_false]
  by_cases hd : b.date < x.date
  · simp [hd, Nat.lt_irrefl]
  · simp [hd]

/-- The selection loop over non-historical items, started from a
non-historical selection, computes the first-seen latest-date item. -/
theorem foldl_stepSelect_nonhist (key : String) :
    ∀ (items : List Item) (b : Item), isHistoricalName b.filename = false →
      (∀ it ∈ items, isHistoricalName it.filename = false) →
      items.foldl (stepSelect key) (some b, b.date) =
        (some (specGo b items), (specGo b items).date) := by
  intro items
  induction items with
  | nil => intro b _ _; rfl
  | cons x rest ih =>
    intro b hb h
    have hx : isHistoricalName x.filename = false := h x (by simp)
    have hrest : ∀ it ∈ rest, isHistoricalName it.filename = false :=
      fun it hit => h it (by simp [hit])
    simp only [List.foldl_cons]
    rw [stepSelect_nonhist key b x hb hx]
    by_cases hd : b.date < x.date
    · rw [if_pos hd, ih x hx hrest]
      simp [specGo, hd]
    · rw [if_neg hd, ih b hb hrest]
      simp [specGo, hd]

/-- The first step of the selection loop from the empty state selects
the item. -/
theorem stepSelect_none (key : String) (x : Item) :
    stepSelect key (none, 0) x = (some x, x.date) := by
  unfold stepSelect latestIsHistorical
  by_cases hh : keyHasBorough key && isHistoricalName x.filename
  · simp [hh]
  · simp only [hh, if_false, Bool.and_false, Bool.not_false, Bool.and_true]
    by_cases h0 : x.date > 0 <;> simp [h0]


/-! ## Lemmas about the download retry loop -/

/-- Whenever at least one attempt runs, the first recorded directory
state is the state the run started from. -/
theorem dlGo_snd_cons (d : List String) (a : DLOutcome × List String)
    (t : List (DLOutcome × List String)) :
    ∃ tl, (dlGo d (a :: t)).2 = d :: tl := by
  obtain ⟨o, dep⟩ := a
  cases o <;> cases t <;> exact ⟨_, rfl⟩

/-- A run whose attempts all fail returns `False` (it does not crash nor
claim success). -/
theorem dlGo_fst_of_no_success :
    ∀ (attempts : List (DLOutcome × List String)) (dir : List String),
      (∀ a ∈ attempts, a.1 ≠ DLOutcome.completed) →
      (dlGo dir attempts).1 = false := by
  intro attempts
  induction attempts with
  | nil => intro dir _; rfl
  | cons a rest ih =>
    intro dir h
    obtain ⟨o, dep⟩ := a
    have ho : o ≠ DLOutcome.completed := h (o, dep) (by simp)
    have hrest : ∀ a ∈ rest, a.1 ≠ DLOutcome.completed :=
      fun a ha => h a (by simp [ha])
    cases o with
    | completed => exact absurd rfl ho
    | timedOut =>
      cases rest with
      | nil => rfl
      | cons b t => exact ih _ hrest
    | raisedExc =>
      cases rest with
      | nil => rfl
      | cons b t => exact ih _ hrest

/-- After an attempt that ends by poll timeout (with retries remaining),
the next attempt starts with no `.crdownload` marker in the
directory. -/
theorem dlGo_timeout_cleans :
    ∀ (attempts : List (DLOutcome × List String)) (dir : List String) (i : Nat)
      (dep : List String) (l : List String),
      attempts[i]? = some (DLOutcome.timedOut, dep) →
      ((dlGo dir attempts).2)[i + 1]? = some l →
      ∀ f ∈ l, isCrdownload f = false := by
  intro attempts
  induction attempts with
  | nil => intro dir i dep l h1 _; simp at h1
  | cons a rest ih =>
    intro dir i dep l h1 h2
    obtain ⟨o, dp⟩ := a
    cases i with
    | zero =>
      simp only [List.getElem?_cons_zero, Option.some.injEq, Prod.mk.injEq] at h1
      obtain ⟨ho, hdp⟩ := h1
      subst ho
      cases rest with
      | nil =>
        have h2' : ([dir] : List (List String))[1]? = some l := h2
        simp at h2'
      | cons b t =>
        have h2' : (dir :: (dlGo ((dir ++ dp).filter (fun f => !isCrdownload f)) (b :: t)).2)[1]? =
            some l := h2
        obtain ⟨tl, htl⟩ := dlGo_snd_cons ((dir ++ dp).filter (fun f => !isCrdownload f)) b t
        rw [htl] at h2'
        simp only [List.getElem?_cons_succ, List.getElem?_cons_zero, Option.some.injEq] at h2'
        subst h2'
        intro f hf
        have := (List.mem_filter.mp hf).2
        simpa using this
    | succ i' =>
      rw [List.getElem?_cons_succ] at h1
      cases o with
      | completed =>
        have h2' : ([dir] : List (List String))[i' + 1 + 1]? = some l := h2
        simp at h2'
      | timedOut =>
        cases rest with
        | nil => simp at h1
        | cons b t =>
          have h2' : (dir :: (dlGo ((dir ++ dp).filter (fun f => !isCrdownload f)) (b :: t)).2)[i' + 1 + 1]? =
              some l := h2
          rw [List.getElem?_cons_succ] at h2'
          exact ih _ i' dep l h1 h2'
      | raisedExc =>
        cases rest with
        | nil => simp at h1
        | cons b t =>
          have h2' : (dir :: (dlGo (dir ++ dp) (b :: t)).2)[i' + 1 + 1]? = some l := h2
          rw [List.getElem?_cons_succ] at h2'
          exact ih _ i' dep l h1 h2'

/-! ## Claim theorems -/

/-- A non-historical candidate already selected for the borough
category, with date 2024-02-29. -/
def ceNonHist : Item :=
  ⟨"https://example.org/a.csv", "MPS Borough Level Crime latest.csv", 20240229⟩

/-- A historical-flagged candidate for the same category, with the
earlier date 2024-01-31. -/
def ceHist : Item :=
  ⟨"https://example.org/b.csv", "MPS Borough Level Crime (Historical).csv", 20240131⟩

/-- C1 counterexample: an item whose filename contains the historical
marker does NOT unconditionally win over a previously selected
non-historical item.  Here the historical item arrives second with an
older parsed date, and the selection keeps the non-historical item
(line 426 requires `current_date > latest_files[key][1]`). -/
theorem C1_counterexample :
    isHistoricalName ceHist.filename = true ∧
    isHistoricalName ceNonHist.filename = false ∧
    keyHasBorough "borough" = true ∧
    selectForKey "borough" [ceNonHist, ceHist] = (some ceNonHist, 20240229) := by
  decide

/-- C1 (amended): for a category whose key contains "borough", a
historical-flagged item replaces the previously selected item exactly
when its parsed date is strictly later; otherwise the previous selection
is kept. -/
theorem C1_historical_wins_only_if_newer (key : String) (sel it : Item) (maxD : Nat)
    (hk : keyHasBorough key = true) (hh : isHistoricalName it.filename = true) :
    stepSelect key (some sel, maxD) it =
      if sel.date < it.date then (some it, it.date) else (some sel, maxD) := by
  unfold stepSelect
  simp only [hk, hh, Bool.and_self, if_true]

/-- Witness for `C1_historical_wins_only_if_newer` at the
counterexample's input: the older historical item does not displace the
newer non-historical selection. -/
theorem C1_witness :
    stepSelect "borough" (some ceNonHist, 20240229) ceHist = (some ceNonHist, 20240229) := by
  have h := C1_historical_wins_only_if_newer "borough" ceNonHist ceHist 20240229
    (by decide) (by decide)
  rw [h]
  decide

/-- C3 counterexample: when neither the dedicated date element nor the
item text yields a parsable date, the code assigns `datetime.now()`
(line 410), not the minimum possible date. -/
theorem C3_counterexample :
    parse_item_date none none 20251012 = 20251012 ∧
    parse_item_date none none 20251012 ≠ 0 := by
  decide

/-- C3 (amended): an item in which neither the dedicated date element
nor the item text yields a parsable date is assigned the current time
(`datetime.now()`), so that later comparisons treat it as newest, not as
least preferred. -/
theorem C3_undated_item_gets_now (now : Nat) :
    parse_item_date none none now = now := rfl

/-- The earlier-dated of the spec's two example candidates
(2024-01-31, not flagged historical). -/
def c6Jan : Item :=
  ⟨"https://example.org/jan.csv", "MPS Ward Level Crime Jan.csv", 20240131⟩

/-- The later-dated of the spec's two example candidates
(2024-02-29, not flagged historical). -/
def c6Feb : Item :=
  ⟨"https://example.org/feb.csv", "MPS Ward Level Crime Feb.csv", 20240229⟩

/-- C6: among non-historical candidate items matching the same category,
the selection loop picks the first-seen item of strictly maximal parsed
date — a later date wins, and equal dates keep the first-seen item
(`specFirstLatest` is exactly that rule). -/
theorem C6_latest_nonhistorical_wins (key : String) (items : List Item)
    (h : ∀ it ∈ items, isHistoricalName it.filename = false) :
    selectForKey key items =
      (specFirstLatest items, (specFirstLatest items).elim 0 Item.date) := by
  cases items with
  | nil => rfl
  | cons x rest =>
    have hx : isHistoricalName x.filename = false := h x (by simp)
    have hrest : ∀ it ∈ rest, isHistoricalName it.filename = false :=
      fun it hit => h it (by simp [hit])
    unfold selectForKey
    rw [List.foldl_cons, stepSelect_none, foldl_stepSelect_nonhist key rest x hx hrest]
    rfl

/-- Witness for `C6_latest_nonhistorical_wins`: with candidates dated
2024-01-31 and 2024-02-29, neither historical, the 2024-02-29 item is
selected. -/
theorem C6_witness :
    selectForKey "ward" [c6Jan, c6Feb] = (some c6Feb, 20240229) := by
  have h := C6_latest_nonhistorical_wins "ward" [c6Jan, c6Feb] (by decide)
  rw [h]
  decide

/-- The fact-table row stored by a previous successful run. -/
def c2OldRow : FactRow := ⟨"Camden", "Burglary", "Burglary - Residential", 202401, 5⟩

/-- First chunk of the new table being written. -/
def c2NewA : FactRow := ⟨"Camden", "Burglary", "Burglary - Residential", 202402, 7⟩

/-- Second chunk of the new table being written (its INSERT fails). -/
def c2NewB : FactRow := ⟨"Camden", "Arson", "Arson", 202402, 1⟩

/-- A connection whose committed database holds the previous fact
table. -/
def c2Prior : SqliteConn := ⟨⟨[("crime_borough_combined", [c2OldRow])]⟩, none⟩

/-- C2: the whole-table replace of the fact table is NOT atomic.  When
the INSERT of the second chunk raises a store error, the `DROP TABLE`
and `CREATE TABLE` that `if_exists='replace'` issued have already been
committed (legacy sqlite3 isolation opens a transaction only before
DML), so the rollback of line 1066 restores only the inserts: the
previously stored fact table is lost and an empty table remains.  The
code's own `rollback` comments show the intent of leaving the old table
intact, so this is a defect of the code, not of the claim. -/
theorem C2_replace_not_atomic :
    getTable c2Prior.committed "crime_borough_combined" = some [c2OldRow] ∧
    (write_final_table c2Prior [[c2NewA], [c2NewB]] (some 1)).2 = false ∧
    getTable (write_final_table c2Prior [[c2NewA], [c2NewB]] (some 1)).1.committed
      "crime_borough_combined" = some [] := by
  decide

/-- The failing run of the C9 counterexample: the first attempt raises
an exception after the transfer left a stale marker file; the second
(final) attempt times out. -/
def c9ExcAttempts : List (DLOutcome × List String) :=
  [(DLOutcome.raisedExc, ["part.csv.crdownload"]), (DLOutcome.timedOut, [])]

/-- C9 counterexample: an attempt that ends by exception (with a retry
remaining) does NOT remove the stale `.crdownload` marker — the cleanup
of lines 590-597 runs only on the poll-timeout path, so the next
attempt starts with the marker still present. -/
theorem C9_counterexample :
    isCrdownload "part.csv.crdownload" = true ∧
    download_file_model c9ExcAttempts [] = (false, [[], ["part.csv.crdownload"]]) := by
  decide

/-- C9 (amended): a run none of whose attempts observes a completed
download returns failure, and after an attempt that ends by poll
timeout (with a retry remaining) the next attempt starts with every
`.crdownload` marker removed from the directory; an attempt that ends
by exception keeps the directory as the attempt left it. -/
theorem C9_timeout_cleanup_and_failure (attempts : List (DLOutcome × List String))
    (dir0 : List String) :
    ((∀ a ∈ attempts, a.1 ≠ DLOutcome.completed) →
      (download_file_model attempts dir0).1 = false) ∧
    (∀ i dep l, attempts[i]? = some (DLOutcome.timedOut, dep) →
      ((download_file_model attempts dir0).2)[i + 1]? = some l →
      ∀ f ∈ l, isCrdownload f = false) :=
  ⟨fun h => dlGo_fst_of_no_success attempts dir0 h,
   fun i dep l h1 h2 => dlGo_timeout_cleans attempts dir0 i dep l h1 h2⟩

/-- The run of the C9 witness: the first attempt times out after the
transfer left a stale marker and a completed data file; the second
(final) attempt times out as well. -/
def c9TimeoutAttempts : List (DLOutcome × List String) :=
  [(DLOutcome.timedOut, ["part.csv.crdownload", "data.csv"]), (DLOutcome.timedOut, [])]

/-- Witness for `C9_timeout_cleanup_and_failure`: the run fails, and
the second attempt starts with the marker removed (only the completed
`data.csv` remains). -/
theorem C9_witness :
    (download_file_model c9TimeoutAttempts []).1 = false ∧
    ∀ f ∈ (["data.csv"] : List String), isCrdownload f = false := by
  have h := C9_timeout_cleanup_and_failure c9TimeoutAttempts []
  refine ⟨h.1 (by decide), ?_⟩
  exact h.2 0 ["part.csv.crdownload", "data.csv"] ["data.csv"] (by decide) (by decide)

/-- C4: no row of the final fact table carries a region value from the
fixed exclusion set, whatever the engine's input. -/
theorem C4_excluded_regions_absent (rows : List CombinedRow) :
    ∀ r ∈ enginePipeline rows, r.borough ∉ boroughs_to_exclude :=
  fun _ hr => (mem_enginePipeline hr).2

/-- A demonstration input row for the engine: lower-case text fields, a
mappable minor category, positive count. -/
def demoCombined : CombinedRow :=
  ⟨some "camden", some "burglary", some "burglary in a dwelling", 202401, 3⟩

/-- The single row the engine produces from `demoCombined`. -/
def demoFact : FactRow := ⟨"Camden", "Burglary", "Burglary - Residential", 202401, 3⟩

/-- Witness for `C4_excluded_regions_absent` on a concrete run. -/
theorem C4_witness : demoFact.borough ∉ boroughs_to_exclude :=
  C4_excluded_regions_absent [demoCombined] demoFact (by decide)

/-- C5: after normalization, a minor-category label with an entry in the
static mapping is replaced by its canonical label, and a label with no
entry passes through unchanged. -/
theorem C5_minor_mapping_applied (s : String) :
    (∀ c, minor_crime_mapping.lookup s = some c → applyMinorMapping s = c) ∧
    (minor_crime_mapping.lookup s = none → applyMinorMapping s = s) := by
  constructor
  · intro c hc
    unfold applyMinorMapping
    rw [hc]
    rfl
  · intro hn
    unfold applyMinorMapping
    rw [hn]
    rfl

/-- Witness for `C5_minor_mapping_applied`: the normalized label
"Burglary In A Dwelling" is mapped to "Burglary - Residential", and an
unmapped label passes through. -/
theorem C5_witness :
    normalizeField "Burglary In A Dwelling" = "Burglary In A Dwelling" ∧
    applyMinorMapping "Burglary In A Dwelling" = "Burglary - Residential" ∧
    applyMinorMapping "Cheese Theft" = "Cheese Theft" := by
  refine ⟨by decide, ?_, ?_⟩
  · exact (C5_minor_mapping_applied "Burglary In A Dwelling").1 "Burglary - Residential" (by decide)
  · exact (C5_minor_mapping_applied "Cheese Theft").2 (by decide)

/-- C7: every row of the final fact table has a strictly positive count
equal to the sum of all normalized raw contributions of its exact
`(region, major, minor, month)` key, and a key whose contributions sum
to zero appears in no row of the final table. -/
theorem C7_counts_are_group_sums (rows : List CombinedRow) :
    (∀ r ∈ enginePipeline rows,
      0 < r.count ∧ r.count = sumFor (rows.map normalizeRow) (keyOf r)) ∧
    (∀ k, sumFor (rows.map normalizeRow) k = 0 →
      ∀ r ∈ enginePipeline rows, keyOf r ≠ k) := by
  constructor
  · intro r hr
    exact mem_finalAgg (mem_enginePipeline hr).1
  · intro k hk r hr hkey
    have h := mem_finalAgg (mem_enginePipeline hr).1
    rw [h.2, hkey, hk] at h
    exact absurd h.1 (lt_irrefl 0)

/-- A second demonstration input row with the same key as
`demoCombined` (written differently before normalization) and count 4,
so the aggregated count is 7. -/
def demoCombined2 : CombinedRow :=
  ⟨some " CAMDEN ", some "BURGLARY", some "burglary  in a dwelling", 202401, 4⟩

/-- Witness for `C7_counts_are_group_sums` on a concrete run: the two
contributions of the shared key sum to 7, and no row carries the
zero-sum key `("Camden", "Arson", "Arson", 202401)`. -/
theorem C7_witness :
    (0 : Int) < 7 ∧
    (7 : Int) = sumFor ([demoCombined, demoCombined2].map normalizeRow)
      ("Camden", "Burglary", "Burglary - Residential", 202401) ∧
    keyOf ⟨"Camden", "Burglary", "Burglary - Residential", 202401, 7⟩ ≠
      ("Camden", "Arson", "Arson", 202401) := by
  have h := C7_counts_are_group_sums [demoCombined, demoCombined2]
  have h1 := h.1 ⟨"Camden", "Burglary", "Burglary - Residential", 202401, 7⟩ (by decide)
  have h2 := h.2 ("Camden", "Arson", "Arson", 202401) (by decide)
    ⟨"Camden", "Burglary", "Burglary - Residential", 202401, 7⟩ (by decide)
  exact ⟨h1.1, h1.2, h2⟩

/-- C8: the final aggregation step (group by the key, sum counts, drop
zero-count rows) is idempotent — applying it to its own output returns
exactly the same rows. -/
theorem C8_final_aggregation_idempotent (rows : List FactRow) :
    finalAgg (finalAgg rows) = finalAgg rows := by
  have hnodup : ((finalAgg rows).map keyOf).Nodup := by
    unfold finalAgg
    exact (nodup_map_keyOf_groupSum rows).sublist
      ((List.filter_sublist (groupSum rows)).map keyOf)
  show ((groupSum (finalAgg rows)).filter (fun r => decide (0 < r.count))) = finalAgg rows
  rw [groupSum_eq_self hnodup]
  refine List.filter_eq_self.mpr ?_
  intro r hr
  unfold finalAgg at hr
  exact (List.mem_filter.mp hr).2

/-- A key whose summed contributions are positive yields a row of the
positive-count aggregation carrying that sum. -/
theorem mem_finalAgg_of_pos {rows : List FactRow} {k : String × String × String × Nat}
    (hk : k ∈ rows.map keyOf) (hpos : 0 < sumFor rows k) :
    mkRow k (sumFor rows k) ∈ finalAgg rows := by
  unfold finalAgg
  refine List.mem_filter.mpr ⟨?_, decide_eq_true hpos⟩
  unfold groupSum
  exact List.mem_map.mpr ⟨k, mem_dedupFirst.mpr hk, rfl⟩

/-- A row of the positive-count aggregation whose borough is not
excluded is a row of the final table. -/
theorem mem_enginePipeline_intro {rows : List CombinedRow} {r : FactRow}
    (h1 : r ∈ finalAgg (rows.map normalizeRow))
    (h2 : r.borough ∉ boroughs_to_exclude) :
    r ∈ enginePipeline rows := by
  unfold enginePipeline sortRows
  rw [List.mem_insertionSort]
  exact List.mem_filter.mpr ⟨h1, decide_eq_true h2⟩

/-- A raw row with a missing (SQL NULL) borough cell. -/
def c10Raw : CombinedRow := ⟨none, some "burglary", some "other theft", 202401, 2⟩

/-- C10 counterexample: a raw row whose borough cell is missing is NOT
converted to the region "Unknown" — `astype(str)` renders the `None`
read back from sqlite as `"None"`, which the `replace('Nan',
'Unknown')` of line 924 does not touch and which is not in the
exclusion list of line 1037, so the row reaches the final fact
table. -/
theorem C10_counterexample :
    c10Raw.borough = none ∧
    (normalizeRow c10Raw).borough = "None" ∧
    "None" ∉ boroughs_to_exclude ∧
    (⟨"None", "Burglary", "Other Theft", 202401, 2⟩ : FactRow) ∈ enginePipeline [c10Raw] := by
  decide

/-- C10 (amended): a raw row whose borough cell is missing (NULL) is
normalized to the literal region "None", which is not in the exclusion
set, so whenever the summed contributions of its normalized key are
positive the final fact table contains that key's row — the
missing-borough row is not filtered out. -/
theorem C10_missing_borough_reaches_table (rows : List CombinedRow) (raw : CombinedRow)
    (hraw : raw.borough = none) (hmem : raw ∈ rows)
    (hpos : 0 < sumFor (rows.map normalizeRow) (keyOf (normalizeRow raw))) :
    (normalizeRow raw).borough = "None" ∧
    mkRow (keyOf (normalizeRow raw))
      (sumFor (rows.map normalizeRow) (keyOf (normalizeRow raw))) ∈ enginePipeline rows := by
  have hb : (normalizeRow raw).borough = "None" := by
    show normalizeField (pyStrOfCell raw.borough) = "None"
    rw [hraw]
    decide
  refine ⟨hb, ?_⟩
  apply mem_enginePipeline_intro
  · apply mem_finalAgg_of_pos ?_ hpos
    exact List.mem_map.mpr ⟨normalizeRow raw, List.mem_map.mpr ⟨raw, hmem, rfl⟩, rfl⟩
  · show (normalizeRow raw).borough ∉ boroughs_to_exclude
    rw [hb]
    decide

/-- Witness for `C10_missing_borough_reaches_table` on a concrete run:
the missing-borough row's aggregated record is present in the final
table under the region "None". -/
theorem C10_witness :
    (normalizeRow c10Raw).borough = "None" ∧
    mkRow (keyOf (normalizeRow c10Raw))
      (sumFor ([c10Raw].map normalizeRow) (keyOf (normalizeRow c10Raw)))
      ∈ enginePipeline [c10Raw] :=
  C10_missing_borough_reaches_table [c10Raw] c10Raw rfl (by decide) (by decide)
